import Mathlib

/-!
Shallow embedding of the image-import pipeline (scripts/import-images.ts)
of the sf-through-ads repository, together with proofs of the claims made
by its specification.

The pipeline reads a batch of source photographs, deduplicates them by
sha256 digest, extracts EXIF metadata (capture time, GPS location),
resolves a timezone, generates derivative JPEG files and an AI alt-text,
and appends records to a YAML manifest that is re-sorted and rewritten
at the end of the batch.

Modelling choices:
- JavaScript strings handled character-by-character (coordinate parsing)
  are embedded as `List Char`; opaque identifiers (hashes, file names,
  timezone ids) stay Lean `String`s compared only for equality.
- JavaScript numbers are embedded as `ℚ` (coordinates) and `ℤ`
  (millisecond timestamps); pixel counts are `ℕ`.
- Outcomes of external effectful tools (the mdls subprocess, the exifr
  parser, the sips converter, sharp encode/write operations, the OpenAI
  call) are inputs of the model: a `SourceFile` value records, for one
  source file, what each external step would yield or whether it throws.
- Thrown exceptions are `Except String`; the filesystem side effects the
  claims talk about (derivative writes, the temporary converted JPEG,
  the alt-text cache) are threaded through an explicit `WorldState`.
-/

/-! ## JavaScript string and number primitives -/

/-- A JavaScript string value, embedded as its list of characters. -/
abbrev JStr := List Char

/-- Whitespace characters stripped by JavaScript `trim` and skipped by
`parseFloat` (the forms that occur in this pipeline's inputs). -/
def isJsWhitespace (c : Char) : Bool :=
  c = ' ' || c = '\t' || c = '\n' || c = '\r'

/-- Model of JavaScript `String.prototype.trim`. -/
def jsTrim (s : JStr) : JStr :=
  ((s.dropWhile isJsWhitespace).reverse.dropWhile isJsWhitespace).reverse

/-- Helper for `splitChar`: accumulates the current chunk (reversed). -/
def splitCharAux (sep : Char) : JStr → JStr → List JStr
  | [], acc => [acc.reverse]
  | c :: cs, acc =>
    if c = sep then acc.reverse :: splitCharAux sep cs []
    else splitCharAux sep cs (c :: acc)

/-- Model of JavaScript `String.prototype.split` with a one-character
separator. -/
def splitChar (sep : Char) (s : JStr) : List JStr :=
  splitCharAux sep s []

/-- Model of JavaScript `String.prototype.includes` with a one-character
needle. -/
def containsChar (c : Char) (s : JStr) : Bool :=
  s.any (fun d => d = c)

/-- Longest leading run of decimal digits, and the rest of the input. -/
def takeDigits : JStr → JStr × JStr
  | [] => ([], [])
  | c :: cs =>
    if c.isDigit then
      let p := takeDigits cs
      (c :: p.1, p.2)
    else ([], c :: cs)

/-- Numeric value of a digit string (most significant digit first). -/
def digitsToNat (l : JStr) : ℕ :=
  l.foldl (fun a c => a * 10 + (c.toNat - 48)) 0

/-- Modelled core of JavaScript `parseFloat` on decimal notation: skip
leading whitespace, an optional sign, then the longest prefix of digits
with an optional fractional part; `none` models `NaN` (no digits at
all).  Returns the parsed pieces (negative?, integer part, fraction
numerator, fraction digit count); exponent notation does not occur in
this pipeline's inputs and is not modelled. -/
def parseFloatParts (s : JStr) : Option (Bool × ℕ × ℕ × ℕ) :=
  let s1 := s.dropWhile isJsWhitespace
  let signed : Bool × JStr :=
    match s1 with
    | '-' :: r => (true, r)
    | '+' :: r => (false, r)
    | r => (false, r)
  let ip := takeDigits signed.2
  let fp : JStr :=
    match ip.2 with
    | '.' :: r => (takeDigits r).1
    | _ => []
  if ip.1.isEmpty && fp.isEmpty then none
  else some (signed.1, digitsToNat ip.1, digitsToNat fp, fp.length)

/-- Rational value of the pieces produced by `parseFloatParts`. -/
def ratOfParts (p : Bool × ℕ × ℕ × ℕ) : ℚ :=
  (if p.1 then (-1 : ℚ) else 1) *
    ((p.2.1 : ℚ) + (p.2.2.1 : ℚ) / (10 : ℚ) ^ p.2.2.2)

/-- Model of JavaScript `parseFloat` as used by the pipeline (`none` is
`NaN`). -/
def parseFloat (s : JStr) : Option ℚ :=
  (parseFloatParts s).map ratOfParts

/-- Model of `dmsToDecimal` (scripts/import-images.ts, lines 62-74):
convert DMS `"deg,min,sec"` to decimal degrees, falling back to
`parseFloat` of the whole string when the input has no comma or does not
split into exactly three parts; when it splits into three parts the sum
is returned, `NaN` (here `none`) propagating from unparseable parts. -/
def dmsToDecimal (dmsString : JStr) : Option ℚ :=
  if containsChar ',' dmsString then
    match (splitChar ',' dmsString).map (fun p => parseFloat (jsTrim p)) with
    | [some degrees, some minutes, some seconds] =>
        some (degrees + minutes / 60 + seconds / 3600)
    | [_, _, _] => none
    | _ => parseFloat dmsString
  else
    parseFloat dmsString

/-! ## Data model -/

/-- Model of the `ImageLocation` interface: decimal-degree GPS
coordinates. -/
structure ImageLocation where
  lat : ℚ
  lng : ℚ
deriving Repr, DecidableEq

/-- Paths in the directories the pipeline writes to.  `temp` is the
`temp_<now>.jpg` working file in the public images directory, `full id`
and `thumb id` are the two derivative files named from the zero-padded
id, `original name` is the archived copy under the originals folder. -/
inductive FsPath
  | temp
  | full (id : ℕ)
  | thumb (id : ℕ)
  | original (name : String)
deriving Repr, DecidableEq

/-- Model of the `ImageEntry` interface (one manifest record).
`filename` and `thumbnail_filename` keep the derivative paths in their
structured form (`<paddedId>.jpg` and `<paddedId>_thumb.jpg` in the
source); `taken_at` and `imported_at` are millisecond instants. -/
structure ImageEntry where
  id : ℕ
  filename : FsPath
  thumbnail_filename : FsPath
  original_path : String
  original_hash : String
  taken_at : ℤ
  imported_at : ℤ
  width : ℕ
  height : ℕ
  location : ImageLocation
  timezone : String
  ai_generated_alt_text : String
  description : String
  tags : List String
deriving Repr, DecidableEq

/-! ## Metadata extraction (extractExifData) -/

/-- Outcome of the `extractHeicExifViaMdls` subprocess query for one
file: the fields it parsed out of the `mdls` output, `none` when absent
or when the subprocess threw. -/
structure MdlsResult where
  takenAt : Option ℤ
  location : Option ImageLocation
deriving Repr, DecidableEq

/-- Outcome of a successful `exifr.parse` call: the picked fields, each
absent when the file does not carry it. -/
structure ExifrResult where
  DateTimeOriginal : Option ℤ
  CreateDate : Option ℤ
  latitude : Option ℚ
  longitude : Option ℚ
  ImageWidth : Option ℕ
  ImageHeight : Option ℕ
  ExifImageWidth : Option ℕ
  ExifImageHeight : Option ℕ
deriving Repr, DecidableEq

/-- Metadata-relevant description of one source file: its lowercased
extension and what the two readers and the filesystem would report for
it (`exifr = none` models `exifr.parse` throwing). -/
structure FileMeta where
  ext : String
  mdls : MdlsResult
  exifr : Option ExifrResult
  mtimeMs : ℤ
deriving Repr, DecidableEq

/-- JavaScript truthiness of an optional number (`0` is falsy), as in
`exif?.latitude && exif?.longitude`. -/
def numTruthy (v : Option ℚ) : Bool :=
  match v with
  | some q => q != 0
  | none => false

/-- JavaScript `a || b` on an optional number with a numeric default,
as in `exif?.ExifImageWidth || exif?.ImageWidth || 0`. -/
def jsOrNat (v : Option ℕ) (d : ℕ) : ℕ :=
  match v with
  | some n => if n = 0 then d else n
  | none => d

/-- The record `extractExifData` resolves on success. -/
structure ExifData where
  takenAt : ℤ
  location : ImageLocation
  timezone : String
  width : ℕ
  height : ℕ
deriving Repr, DecidableEq

/-- Model of `extractExifData` (scripts/import-images.ts, lines
112-194).  For a `.heic` file the mdls outcome seeds `takenAt` and
`location`; the exifr fields are only consulted for a field the mdls
step did not fill (`DateTimeOriginal` before `CreateDate` for the date,
the truthy latitude/longitude pair for the location); a still-missing
date falls back to the file modification time with a logged warning
(the returned `Bool`); a still-missing location or an empty timezone
lookup throws.  `tz` is the geo-tz `find` lookup. -/
def extractExifData (tz : ℚ → ℚ → List String) (f : FileMeta) :
    Except String (ExifData × Bool) :=
  let mdlsTaken : Option ℤ := if f.ext = ".heic" then f.mdls.takenAt else none
  let mdlsLoc : Option ImageLocation :=
    if f.ext = ".heic" then f.mdls.location else none
  let afterExifr : Option ℤ × Option ImageLocation × ℕ × ℕ :=
    match f.exifr with
    | none => (mdlsTaken, mdlsLoc, 0, 0)
    | some e =>
      let t : Option ℤ :=
        match mdlsTaken with
        | some t0 => some t0
        | none =>
          match e.DateTimeOriginal with
          | some d => some d
          | none => e.CreateDate
      let l : Option ImageLocation :=
        match mdlsLoc with
        | some l0 => some l0
        | none =>
          if numTruthy e.latitude && numTruthy e.longitude then
            some ⟨e.latitude.getD 0, e.longitude.getD 0⟩
          else none
      (t, l, jsOrNat e.ExifImageWidth (jsOrNat e.ImageWidth 0),
        jsOrNat e.ExifImageHeight (jsOrNat e.ImageHeight 0))
  let takenWarned : ℤ × Bool :=
    match afterExifr.1 with
    | some t => (t, false)
    | none => (f.mtimeMs, true)
  match afterExifr.2.1 with
  | none => .error "No GPS coordinates found"
  | some loc =>
    match tz loc.lat loc.lng with
    | [] => .error "Could not determine timezone"
    | z :: _ =>
      .ok (⟨takenWarned.1, loc, z, afterExifr.2.2.1, afterExifr.2.2.2⟩,
        takenWarned.2)

/-! ## Alt text generation (generateAltText) -/

/-- The on-disk alt-text cache, one entry per digest, newest first. -/
abbrev AltCache := List (String × String)

/-- Model of `getCachedAltText`: look the digest up in the cache. -/
def getCachedAltText (cache : AltCache) (hash : String) : Option String :=
  match cache.find? (fun kv => kv.1 = hash) with
  | some kv => some kv.2
  | none => none

/-- Model of `setCachedAltText`: write the digest's cache entry. -/
def setCachedAltText (cache : AltCache) (hash altText : String) : AltCache :=
  (hash, altText) :: cache

/-- Outcome of the OpenAI chat-completion call for one image: `failed`
covers a transport error, an empty response, and a JSON parse error
(everything the `catch` in `generateAltText` handles); `parsed` is a
successful structured response whose `alt_text` field may be absent. -/
inductive NetOutcome
  | failed
  | parsed (altField : Option String)
deriving Repr, DecidableEq

/-- The generic fallback description returned by `generateAltText`. -/
def fallbackAltText : String := "An advertisement from San Francisco."

/-- JavaScript `a || b` on an optional string with a string default
(the empty string is falsy), as in `parsed.alt_text || "..."`. -/
def jsOrStr (v : Option String) (d : String) : String :=
  match v with
  | some s => if s = "" then d else s
  | none => d

/-- Result of `generateAltText`: the description, the cache after the
call, and whether the remote service was contacted. -/
structure AltResult where
  text : String
  cache : AltCache
  networkCalled : Bool
deriving Repr, DecidableEq

/-- Model of `generateAltText` (scripts/import-images.ts, lines
218-277): return a cache hit without any network call; otherwise call
the service — on success extract `alt_text` (or the fallback when the
field is falsy) and write it through to the cache, on any caught error
return the fallback and leave the cache untouched. -/
def generateAltText (cache : AltCache) (net : NetOutcome) (hash : String) :
    AltResult :=
  match getCachedAltText cache hash with
  | some cached => ⟨cached, cache, false⟩
  | none =>
    match net with
    | .failed => ⟨fallbackAltText, cache, true⟩
    | .parsed altField =>
      let altText := jsOrStr altField fallbackAltText
      ⟨altText, setCachedAltText cache hash altText, true⟩

/-! ## Image processing (processImage) -/

/-- Full description of one source file as `processImage` sees it: its
content digest, its metadata (`meta.ext` is the file's lowercased
extension), the dimensions sharp reports after auto-rotation, the
outcome of the OpenAI call for its bytes, and the success or failure of
each external effectful step (`convertLeftFile` says whether a failing
sips run still created its output file).  `inOriginalsDir` models
`path.resolve(sourcePath) === path.resolve(originalDest)`. -/
structure SourceFile where
  name : String
  hash : String
  meta : FileMeta
  convertFails : Bool
  convertLeftFile : Bool
  readFails : Bool
  rotateFails : Bool
  rotatedWidth : ℕ
  rotatedHeight : ℕ
  altNet : NetOutcome
  fullWriteFails : Bool
  thumbWriteFails : Bool
  inOriginalsDir : Bool
  copyFails : Bool
deriving Repr, DecidableEq

/-- Which buffer a sharp encode/write ran on: the bytes read from disk
(or converted from HEIC), or the auto-rotated re-encoded buffer. -/
inductive BufferStage
  | raw
  | rotated
deriving Repr, DecidableEq

/-- A `sharp().extract` region: left/top offset and output size. -/
structure CropSpec where
  left : ℕ
  top : ℕ
  width : ℕ
  height : ℕ
deriving Repr, DecidableEq

/-- One derivative file written by `processImage`: where, from which
buffer, with which crop (none = no resize, original aspect ratio), its
output pixel dimensions, and the JPEG quality used. -/
structure DerivWrite where
  path : FsPath
  source : BufferStage
  crop : Option CropSpec
  width : ℕ
  height : ℕ
  quality : ℕ
deriving Repr, DecidableEq

/-- The filesystem and cache state the pipeline mutates: which modelled
paths exist, the alt-text cache, how many remote alt-text calls were
made, and the log of derivative writes. -/
structure WorldState where
  fs : List FsPath
  cache : AltCache
  netCalls : ℕ
  writes : List DerivWrite
deriving Repr, DecidableEq

/-- Create a file (writing an already-existing path keeps one entry). -/
def fsAdd (fs : List FsPath) (p : FsPath) : List FsPath :=
  if p ∈ fs then fs else p :: fs

/-- Result of one `processImage` call: the returned entry (`ok none` =
duplicate skip), or the thrown error, together with the world state
after the call. -/
structure ProcResult where
  result : Except String (Option ImageEntry)
  world : WorldState
deriving Repr

/-- The manifest record `processImage` assembles on success
(scripts/import-images.ts, lines 365-380). -/
def mkEntry (now : ℤ) (f : SourceFile) (id : ℕ) (exif : ExifData)
    (altText : String) (width height : ℕ) : ImageEntry :=
  { id := id
    filename := .full id
    thumbnail_filename := .thumb id
    original_path := f.name
    original_hash := f.hash
    taken_at := exif.takenAt
    imported_at := now
    width := width
    height := height
    location := exif.location
    timezone := exif.timezone
    ai_generated_alt_text := altText
    description := ""
    tags := [] }

/-- Steps of `processImage` after the working buffer was obtained
(scripts/import-images.ts, lines 314-382): extract metadata, auto-rotate
(the re-encoded buffer's dimensions are what sharp reports), resolve
alt text, write the full rendition at quality 90 from the rotated
buffer, write the square center-cropped thumbnail at quality 85 from
the rotated buffer, archive the original unless it is already in the
originals folder, and assemble the entry. -/
def processAfterRead (tz : ℚ → ℚ → List String) (now : ℤ) (f : SourceFile)
    (id : ℕ) (w : WorldState) : ProcResult :=
  match extractExifData tz f.meta with
  | .error msg => ⟨.error msg, w⟩
  | .ok exif =>
    if f.rotateFails then ⟨.error "sharp rotate failed", w⟩
    else
      let width := f.rotatedWidth
      let height := f.rotatedHeight
      let alt := generateAltText w.cache f.altNet f.hash
      let w1 : WorldState :=
        { w with
          cache := alt.cache
          netCalls := w.netCalls + (if alt.networkCalled then 1 else 0) }
      if f.fullWriteFails then ⟨.error "full jpeg write failed", w1⟩
      else
        let fullWrite : DerivWrite :=
          ⟨.full id, .rotated, none, width, height, 90⟩
        let w2 : WorldState :=
          { w1 with
            fs := fsAdd w1.fs (.full id)
            writes := w1.writes ++ [fullWrite] }
        let size := min width height
        let cropX := (width - size) / 2
        let cropY := (height - size) / 2
        if f.thumbWriteFails then ⟨.error "thumbnail write failed", w2⟩
        else
          let thumbWrite : DerivWrite :=
            ⟨.thumb id, .rotated, some ⟨cropX, cropY, size, size⟩,
              size, size, 85⟩
          let w3 : WorldState :=
            { w2 with
              fs := fsAdd w2.fs (.thumb id)
              writes := w2.writes ++ [thumbWrite] }
          if f.inOriginalsDir then
            ⟨.ok (some (mkEntry now f id exif.1 alt.text width height)), w3⟩
          else if f.copyFails then ⟨.error "copyFileSync failed", w3⟩
          else
            ⟨.ok (some (mkEntry now f id exif.1 alt.text width height)),
              { w3 with fs := fsAdd w3.fs (.original f.name) }⟩

/-- Body of the `try` block of `processImage` (scripts/import-images.ts,
lines 303-382): for a HEIC file convert it to a temporary JPEG (a
failing conversion may or may not have created the file), read the
working bytes, and continue with `processAfterRead`. -/
def processImageBody (tz : ℚ → ℚ → List String) (now : ℤ) (f : SourceFile)
    (id : ℕ) (w : WorldState) : ProcResult :=
  if f.meta.ext = ".heic" then
    if f.convertFails then
      ⟨.error "sips conversion failed",
        { w with fs := if f.convertLeftFile then fsAdd w.fs .temp else w.fs }⟩
    else
      let w1 : WorldState := { w with fs := fsAdd w.fs .temp }
      if f.readFails then ⟨.error "readFileSync failed", w1⟩
      else processAfterRead tz now f id w1
  else
    if f.readFails then ⟨.error "readFileSync failed", w⟩
    else processAfterRead tz now f id w

/-- The `finally` block of `processImage` (scripts/import-images.ts,
lines 383-388): remove the temporary converted JPEG if it exists. -/
def removeTemp (w : WorldState) : WorldState :=
  { w with fs := w.fs.filter (fun p => p ≠ .temp) }

/-- Model of `processImage` (scripts/import-images.ts, lines 280-389):
return `ok none` untouched when the digest is already known, otherwise
run the body under the temp-file cleanup guard. -/
def processImage (tz : ℚ → ℚ → List String) (now : ℤ) (f : SourceFile)
    (id : ℕ) (existingHashes : List String) (w : WorldState) : ProcResult :=
  if f.hash ∈ existingHashes then ⟨.ok none, w⟩
  else
    let b := processImageBody tz now f id w
    ⟨b.result, removeTemp b.world⟩

/-- Whether every fallible step of `processImageBody` succeeds for this
file — equivalently (proved below), whether a non-duplicate
`processImage` call returns a record. -/
def fileOk (tz : ℚ → ℚ → List String) (f : SourceFile) : Bool :=
  (f.meta.ext != ".heic" || !f.convertFails)
    && !f.readFails
    && (match extractExifData tz f.meta with
        | .ok _ => true
        | .error _ => false)
    && !f.rotateFails
    && !f.fullWriteFails
    && !f.thumbWriteFails
    && (f.inOriginalsDir || !f.copyFails)

/-! ## Orchestration (main) -/

/-- The orchestrator's in-memory state while looping over the batch:
the manifest collection being built, the dedup digest set, the next id
to assign, the two exit counters, and the world state. -/
structure BatchState where
  images : List ImageEntry
  existingHashes : List String
  nextId : ℕ
  imported : ℕ
  skipped : ℕ
  world : WorldState
deriving Repr

/-- One iteration of the `for` loop in `main` (scripts/import-images.ts,
lines 462-478): on a returned entry append it, add its digest, advance
the id and the imported counter; on a skip or a caught error only bump
the skipped counter. -/
def batchStep (tz : ℚ → ℚ → List String) (now : ℤ) (s : BatchState)
    (f : SourceFile) : BatchState :=
  let r := processImage tz now f s.nextId s.existingHashes s.world
  match r.result with
  | .ok (some entry) =>
    { s with
      images := s.images ++ [entry]
      existingHashes := s.existingHashes ++ [entry.original_hash]
      nextId := s.nextId + 1
      imported := s.imported + 1
      world := r.world }
  | .ok none => { s with skipped := s.skipped + 1, world := r.world }
  | .error _ => { s with skipped := s.skipped + 1, world := r.world }

/-- The whole batch loop. -/
def runBatch (tz : ℚ → ℚ → List String) (now : ℤ) (s : BatchState)
    (files : List SourceFile) : BatchState :=
  files.foldl (batchStep tz now) s

/-- The maximum id in the loaded manifest, 0 when it is empty
(`data.images.reduce((max, img) => Math.max(max, img.id), 0)`). -/
def maxId (images : List ImageEntry) : ℕ :=
  images.foldl (fun m img => max m img.id) 0

/-- Orchestrator start (scripts/import-images.ts, lines 447-460): seed
the dedup set from the loaded records' digests, start ids at
`maxId + 1`, zero both counters. -/
def initialBatchState (images : List ImageEntry) (w : WorldState) :
    BatchState :=
  { images := images
    existingHashes := images.map (fun img => img.original_hash)
    nextId := maxId images + 1
    imported := 0
    skipped := 0
    world := w }

/-- The manifest order `saveImagesYaml` establishes: the comparator
`(a, b) => tb - ta` sorts by `taken_at` descending. -/
def entryAfter (a b : ImageEntry) : Prop :=
  b.taken_at ≤ a.taken_at

instance : DecidableRel entryAfter :=
  fun a b => inferInstanceAs (Decidable (b.taken_at ≤ a.taken_at))

instance : IsTotal ImageEntry entryAfter :=
  ⟨fun a b => le_total b.taken_at a.taken_at⟩

instance : IsTrans ImageEntry entryAfter :=
  ⟨fun _ _ _ hab hbc => le_trans hbc hab⟩

/-- Model of `saveImagesYaml` (scripts/import-images.ts, lines 401-411):
the persisted document is the collection re-sorted by `taken_at`
descending (a stable comparison sort models `Array.prototype.sort`). -/
def saveImagesYaml (images : List ImageEntry) : List ImageEntry :=
  List.insertionSort entryAfter images

/-- A full run of `main` after setup: the final loop state and the
manifest as persisted by the closing `saveImagesYaml` call. -/
structure ImportRun where
  final : BatchState
  saved : List ImageEntry

/-- Model of `main` (scripts/import-images.ts, lines 429-487) from the
loaded manifest on: run the batch from the initial state and persist
the sorted manifest once at the end. -/
def runMain (tz : ℚ → ℚ → List String) (now : ℤ)
    (loaded : List ImageEntry) (w : WorldState)
    (files : List SourceFile) : ImportRun :=
  let s := runBatch tz now (initialBatchState loaded w) files
  { final := s, saved := saveImagesYaml s.images }

/-- What the exit report prints (scripts/import-images.ts, lines
483-486): the imported counter, the skipped counter, and the total
manifest size — there is no further counter. -/
structure Report where
  imported : ℕ
  skipped : ℕ
  total : ℕ
deriving Repr, DecidableEq

/-- The exit report of a finished batch. -/
def exitReport (s : BatchState) : Report :=
  ⟨s.imported, s.skipped, s.images.length⟩

/-- Per-file outcome tally in the specification's taxonomy: imported
files, silent duplicate skips, and failed files counted separately
(the claim's reading of the exit report). -/
def countOutcomes (tz : ℚ → ℚ → List String) (now : ℤ) (s : BatchState) :
    List SourceFile → ℕ × ℕ × ℕ
  | [] => (0, 0, 0)
  | f :: rest =>
    let r := processImage tz now f s.nextId s.existingHashes s.world
    let tl := countOutcomes tz now (batchStep tz now s f) rest
    match r.result with
    | .ok (some _) => (tl.1 + 1, tl.2.1, tl.2.2)
    | .ok none => (tl.1, tl.2.1 + 1, tl.2.2)
    | .error _ => (tl.1, tl.2.1, tl.2.2 + 1)

/-! ## Concrete fixtures used by witnesses and counterexamples -/

/-- A geo-tz lookup that resolves every point to one zone. -/
def tzSF : ℚ → ℚ → List String := fun _ _ => ["America/Los_Angeles"]

/-- An empty world: no files, empty alt-text cache. -/
def w0 : WorldState := ⟨[], [], 0, []⟩

/-- A HEIC source file for which every external step succeeds and mdls
reports both a capture date and a location. -/
def demoGoodFile : SourceFile :=
  { name := "IMG_0001.heic"
    hash := "sha256:good"
    meta :=
      { ext := ".heic"
        mdls := { takenAt := some 1000, location := some ⟨37, -122⟩ }
        exifr := some
          { DateTimeOriginal := some 900, CreateDate := some 800
            latitude := none, longitude := none
            ImageWidth := some 4032, ImageHeight := some 3024
            ExifImageWidth := none, ExifImageHeight := none }
        mtimeMs := 500 }
    convertFails := false, convertLeftFile := false, readFails := false
    rotateFails := false, rotatedWidth := 4032, rotatedHeight := 3024
    altNet := .parsed (some "A billboard.")
    fullWriteFails := false, thumbWriteFails := false
    inOriginalsDir := false, copyFails := false }

/-- A JPEG source file with no GPS metadata anywhere (the embedded
parser throws, and mdls is not consulted for JPEGs): extraction fails
for it. -/
def demoBadFile : SourceFile :=
  { name := "IMG_0002.jpg"
    hash := "sha256:bad"
    meta :=
      { ext := ".jpg"
        mdls := { takenAt := none, location := none }
        exifr := none
        mtimeMs := 500 }
    convertFails := false, convertLeftFile := false, readFails := false
    rotateFails := false, rotatedWidth := 100, rotatedHeight := 100
    altNet := .failed
    fullWriteFails := false, thumbWriteFails := false
    inOriginalsDir := false, copyFails := false }

/-- A HEIC source file whose conversion succeeds (so the temporary JPEG
exists) but whose thumbnail write throws partway through processing. -/
def demoPartialFile : SourceFile :=
  { name := "IMG_0003.heic"
    hash := "sha256:partial"
    meta :=
      { ext := ".heic"
        mdls := { takenAt := some 2000, location := some ⟨37, -122⟩ }
        exifr := none
        mtimeMs := 500 }
    convertFails := false, convertLeftFile := false, readFails := false
    rotateFails := false, rotatedWidth := 640, rotatedHeight := 480
    altNet := .failed
    fullWriteFails := false, thumbWriteFails := true
    inOriginalsDir := false, copyFails := false }

/-- A manifest record as produced by importing `demoGoodFile` with id 1
into an empty manifest: its digest makes `demoGoodFile` a duplicate. -/
def demoEntry : ImageEntry :=
  { id := 1
    filename := .full 1
    thumbnail_filename := .thumb 1
    original_path := "IMG_0001.heic"
    original_hash := "sha256:good"
    taken_at := 1000
    imported_at := 0
    width := 4032
    height := 3024
    location := ⟨37, -122⟩
    timezone := "America/Los_Angeles"
    ai_generated_alt_text := "A billboard."
    description := ""
    tags := [] }

/-! ## Characterization of processImage outcomes -/

theorem processImage_mem (tz : ℚ → ℚ → List String) (now : ℤ)
    (f : SourceFile) (id : ℕ) (hashes : List String) (w : WorldState)
    (h : f.hash ∈ hashes) :
    processImage tz now f id hashes w = ⟨.ok none, w⟩ := by
  simp [processImage, h]

theorem afterRead_result_some (tz : ℚ → ℚ → List String) (now : ℤ)
    (f : SourceFile) (id : ℕ) (w : WorldState) (e : ImageEntry)
    (h : (processAfterRead tz now f id w).result = .ok (some e)) :
    (match extractExifData tz f.meta with
      | .ok _ => true
      | .error _ => false) = true
    ∧ f.rotateFails = false ∧ f.fullWriteFails = false
    ∧ f.thumbWriteFails = false
    ∧ (f.inOriginalsDir || !f.copyFails) = true
    ∧ e.id = id ∧ e.original_hash = f.hash := by
  unfold processAfterRead at h
  split at h
  · simp at h
  · rename_i ex hex
    split_ifs at h <;> simp_all [mkEntry] <;> (subst h; simp [mkEntry])

theorem afterRead_result_ne_none (tz : ℚ → ℚ → List String) (now : ℤ)
    (f : SourceFile) (id : ℕ) (w : WorldState)
    (h : (processAfterRead tz now f id w).result = .ok none) : False := by
  unfold processAfterRead at h
  split at h
  · simp at h
  · split_ifs at h <;> simp_all

theorem body_result_some (tz : ℚ → ℚ → List String) (now : ℤ)
    (f : SourceFile) (id : ℕ) (w : WorldState) (e : ImageEntry)
    (h : (processImageBody tz now f id w).result = .ok (some e)) :
    fileOk tz f = true ∧ e.id = id ∧ e.original_hash = f.hash := by
  unfold processImageBody at h
  split_ifs at h <;> simp_all <;>
    (rcases afterRead_result_some tz now f id _ e h with ⟨h1, h2, h3, h4, h5, h6, h7⟩
     simp_all [fileOk])

theorem body_result_ne_none (tz : ℚ → ℚ → List String) (now : ℤ)
    (f : SourceFile) (id : ℕ) (w : WorldState)
    (h : (processImageBody tz now f id w).result = .ok none) : False := by
  unfold processImageBody at h
  split_ifs at h <;> simp_all <;>
    exact afterRead_result_ne_none tz now f id _ h

theorem afterRead_writes (tz : ℚ → ℚ → List String) (now : ℤ)
    (f : SourceFile) (id : ℕ) (w : WorldState) (ex : ExifData × Bool)
    (hex : extractExifData tz f.meta = .ok ex)
    (hr : f.rotateFails = false) (hfw : f.fullWriteFails = false)
    (htw : f.thumbWriteFails = false) :
    (processAfterRead tz now f id w).world.writes =
      w.writes ++
        [⟨.full id, .rotated, none, f.rotatedWidth, f.rotatedHeight, 90⟩,
          ⟨.thumb id, .rotated,
            some ⟨(f.rotatedWidth - min f.rotatedWidth f.rotatedHeight) / 2,
              (f.rotatedHeight - min f.rotatedWidth f.rotatedHeight) / 2,
              min f.rotatedWidth f.rotatedHeight,
              min f.rotatedWidth f.rotatedHeight⟩,
            min f.rotatedWidth f.rotatedHeight,
            min f.rotatedWidth f.rotatedHeight, 85⟩] := by
  unfold processAfterRead
  simp only [hex, hr, hfw, htw, Bool.false_eq_true, if_false]
  split_ifs <;> simp

theorem afterRead_result_eq (tz : ℚ → ℚ → List String) (now : ℤ)
    (f : SourceFile) (id : ℕ) (w : WorldState) (ex : ExifData × Bool)
    (hex : extractExifData tz f.meta = .ok ex)
    (hr : f.rotateFails = false) (hfw : f.fullWriteFails = false)
    (htw : f.thumbWriteFails = false)
    (hco : (f.inOriginalsDir || !f.copyFails) = true) :
    (processAfterRead tz now f id w).result =
      .ok (some (mkEntry now f id ex.1
        (generateAltText w.cache f.altNet f.hash).text
        f.rotatedWidth f.rotatedHeight)) := by
  unfold processAfterRead
  simp only [hex, hr, hfw, htw, Bool.false_eq_true, if_false]
  rcases Bool.or_eq_true_iff.mp hco with hio | hcf
  · simp [hio]
  · by_cases hio : f.inOriginalsDir <;> simp_all

theorem body_result_eq (tz : ℚ → ℚ → List String) (now : ℤ)
    (f : SourceFile) (id : ℕ) (w : WorldState) (ex : ExifData × Bool)
    (hok : fileOk tz f = true)
    (hex : extractExifData tz f.meta = .ok ex) :
    (processImageBody tz now f id w).result =
      .ok (some (mkEntry now f id ex.1
        (generateAltText w.cache f.altNet f.hash).text
        f.rotatedWidth f.rotatedHeight)) := by
  simp only [fileOk, Bool.and_eq_true] at hok
  obtain ⟨⟨⟨⟨⟨⟨h1, h2⟩, h3⟩, h4⟩, h5⟩, h6⟩, h7⟩ := hok
  have h4' : f.rotateFails = false := by simpa using h4
  have h5' : f.fullWriteFails = false := by simpa using h5
  have h6' : f.thumbWriteFails = false := by simpa using h6
  simp only [processImageBody]
  split_ifs with hext hcv hrd hrd
  · exfalso; revert h1; simp [hext, hcv]
  · exfalso; revert h2; simp [hrd]
  · exact afterRead_result_eq tz now f id _ ex hex h4' h5' h6' h7
  · exfalso; revert h2; simp [hrd]
  · exact afterRead_result_eq tz now f id _ ex hex h4' h5' h6' h7

theorem processImage_some_inv (tz : ℚ → ℚ → List String) (now : ℤ)
    (f : SourceFile) (id : ℕ) (hashes : List String) (w : WorldState)
    (e : ImageEntry)
    (h : (processImage tz now f id hashes w).result = .ok (some e)) :
    f.hash ∉ hashes ∧ fileOk tz f = true
      ∧ e.id = id ∧ e.original_hash = f.hash := by
  by_cases hmem : f.hash ∈ hashes
  · rw [processImage_mem tz now f id hashes w hmem] at h
    simp at h
  · simp only [processImage, hmem, if_false] at h
    exact ⟨hmem, body_result_some tz now f id w e h⟩

theorem processImage_none_iff (tz : ℚ → ℚ → List String) (now : ℤ)
    (f : SourceFile) (id : ℕ) (hashes : List String) (w : WorldState) :
    (processImage tz now f id hashes w).result = .ok none ↔
      f.hash ∈ hashes := by
  constructor
  · intro h
    by_contra hmem
    simp only [processImage, hmem, if_false] at h
    exact body_result_ne_none tz now f id w h
  · intro hmem
    rw [processImage_mem tz now f id hashes w hmem]

theorem processImage_error_inv (tz : ℚ → ℚ → List String) (now : ℤ)
    (f : SourceFile) (id : ℕ) (hashes : List String) (w : WorldState)
    (msg : String)
    (h : (processImage tz now f id hashes w).result = .error msg) :
    f.hash ∉ hashes ∧ fileOk tz f = false := by
  by_cases hmem : f.hash ∈ hashes
  · rw [processImage_mem tz now f id hashes w hmem] at h
    simp at h
  · refine ⟨hmem, ?_⟩
    by_contra hok
    simp only [Bool.not_eq_false] at hok
    have h3 : (match extractExifData tz f.meta with
        | .ok _ => true
        | .error _ => false) = true := by
      simp only [fileOk, Bool.and_eq_true] at hok
      exact hok.1.1.1.1.2
    rcases hx : extractExifData tz f.meta with msg2 | ex
    · rw [hx] at h3; simp at h3
    · have := body_result_eq tz now f id w ex hok hx
      simp only [processImage, hmem, if_false] at h
      rw [this] at h
      simp at h

theorem processImage_some_eq (tz : ℚ → ℚ → List String) (now : ℤ)
    (f : SourceFile) (id : ℕ) (hashes : List String) (w : WorldState)
    (ex : ExifData × Bool)
    (hmem : f.hash ∉ hashes) (hok : fileOk tz f = true)
    (hex : extractExifData tz f.meta = .ok ex) :
    (processImage tz now f id hashes w).result =
      .ok (some (mkEntry now f id ex.1
        (generateAltText w.cache f.altNet f.hash).text
        f.rotatedWidth f.rotatedHeight)) := by
  simp only [processImage, hmem, if_false]
  exact body_result_eq tz now f id w ex hok hex

/-! ## Batch-loop lemmas -/

theorem batchStep_some (tz : ℚ → ℚ → List String) (now : ℤ)
    (s : BatchState) (f : SourceFile) (e : ImageEntry)
    (h : (processImage tz now f s.nextId s.existingHashes s.world).result =
      .ok (some e)) :
    batchStep tz now s f =
      { s with
        images := s.images ++ [e]
        existingHashes := s.existingHashes ++ [e.original_hash]
        nextId := s.nextId + 1
        imported := s.imported + 1
        world := (processImage tz now f s.nextId s.existingHashes s.world).world } := by
  simp only [batchStep, h]

theorem batchStep_skip (tz : ℚ → ℚ → List String) (now : ℤ)
    (s : BatchState) (f : SourceFile)
    (h : (processImage tz now f s.nextId s.existingHashes s.world).result =
      .ok none) :
    batchStep tz now s f = { s with skipped := s.skipped + 1 } := by
  have hmem : f.hash ∈ s.existingHashes :=
    (processImage_none_iff tz now f s.nextId s.existingHashes s.world).mp h
  have heq := processImage_mem tz now f s.nextId s.existingHashes s.world hmem
  simp only [batchStep, heq]

theorem batchStep_error (tz : ℚ → ℚ → List String) (now : ℤ)
    (s : BatchState) (f : SourceFile) (msg : String)
    (h : (processImage tz now f s.nextId s.existingHashes s.world).result =
      .error msg) :
    batchStep tz now s f =
      { s with
        skipped := s.skipped + 1
        world := (processImage tz now f s.nextId s.existingHashes s.world).world } := by
  simp only [batchStep, h]

theorem batchStep_hashes_mono (tz : ℚ → ℚ → List String) (now : ℤ)
    (s : BatchState) (f : SourceFile) (x : String)
    (h : x ∈ s.existingHashes) :
    x ∈ (batchStep tz now s f).existingHashes := by
  rcases hr : (processImage tz now f s.nextId s.existingHashes s.world).result
    with msg | o
  · rw [batchStep_error tz now s f msg hr]; exact h
  · rcases o with _ | e
    · rw [batchStep_skip tz now s f hr]; exact h
    · rw [batchStep_some tz now s f e hr]
      exact List.mem_append_left _ h

theorem runBatch_hashes_mono (tz : ℚ → ℚ → List String) (now : ℤ)
    (files : List SourceFile) (s : BatchState) (x : String)
    (h : x ∈ s.existingHashes) :
    x ∈ (runBatch tz now s files).existingHashes := by
  induction files generalizing s with
  | nil => exact h
  | cons hd tl ih =>
    exact ih (batchStep tz now s hd) (batchStep_hashes_mono tz now s hd x h)

theorem batchStep_inv (tz : ℚ → ℚ → List String) (now : ℤ)
    (s : BatchState) (f : SourceFile)
    (h : s.existingHashes = s.images.map (fun e => e.original_hash)) :
    (batchStep tz now s f).existingHashes =
      (batchStep tz now s f).images.map (fun e => e.original_hash) := by
  rcases hr : (processImage tz now f s.nextId s.existingHashes s.world).result
    with msg | o
  · rw [batchStep_error tz now s f msg hr]; exact h
  · rcases o with _ | e
    · rw [batchStep_skip tz now s f hr]; exact h
    · rw [batchStep_some tz now s f e hr]
      simp [h]

theorem runBatch_inv (tz : ℚ → ℚ → List String) (now : ℤ)
    (files : List SourceFile) (s : BatchState)
    (h : s.existingHashes = s.images.map (fun e => e.original_hash)) :
    (runBatch tz now s files).existingHashes =
      (runBatch tz now s files).images.map (fun e => e.original_hash) := by
  induction files generalizing s with
  | nil => exact h
  | cons hd tl ih => exact ih (batchStep tz now s hd) (batchStep_inv tz now s hd h)

theorem runBatch_covers (tz : ℚ → ℚ → List String) (now : ℤ)
    (files : List SourceFile) (s : BatchState) (f : SourceFile)
    (hf : f ∈ files) :
    f.hash ∈ (runBatch tz now s files).existingHashes
      ∨ fileOk tz f = false := by
  induction files generalizing s with
  | nil => cases hf
  | cons hd tl ih =>
    rcases List.mem_cons.mp hf with rfl | htl
    · rcases hr : (processImage tz now f s.nextId s.existingHashes s.world).result
        with msg | o
      · exact Or.inr (processImage_error_inv tz now f s.nextId
          s.existingHashes s.world msg hr).2
      · rcases o with _ | e
        · have hmem := (processImage_none_iff tz now f s.nextId
            s.existingHashes s.world).mp hr
          exact Or.inl (runBatch_hashes_mono tz now tl _ f.hash
            (batchStep_hashes_mono tz now s f f.hash hmem))
        · have he := (processImage_some_inv tz now f s.nextId
            s.existingHashes s.world e hr).2.2.2
          refine Or.inl (runBatch_hashes_mono tz now tl _ f.hash ?_)
          rw [batchStep_some tz now s f e hr]
          simp [he]
    · exact ih (batchStep tz now s hd) htl

theorem runBatch_no_imports (tz : ℚ → ℚ → List String) (now : ℤ)
    (files : List SourceFile) (s : BatchState)
    (h : ∀ f ∈ files, f.hash ∈ s.existingHashes ∨ fileOk tz f = false) :
    (runBatch tz now s files).images = s.images
      ∧ (runBatch tz now s files).existingHashes = s.existingHashes := by
  induction files generalizing s with
  | nil => exact ⟨rfl, rfl⟩
  | cons hd tl ih =>
    have hstep : (batchStep tz now s hd).images = s.images
        ∧ (batchStep tz now s hd).existingHashes = s.existingHashes := by
      rcases h hd (List.mem_cons_self hd tl) with hmem | hnok
      · rw [batchStep_skip tz now s hd
          ((processImage_none_iff tz now hd s.nextId s.existingHashes s.world).mpr hmem)]
        exact ⟨rfl, rfl⟩
      · rcases hr : (processImage tz now hd s.nextId s.existingHashes s.world).result
          with msg | o
        · rw [batchStep_error tz now s hd msg hr]; exact ⟨rfl, rfl⟩
        · rcases o with _ | e
          · rw [batchStep_skip tz now s hd hr]; exact ⟨rfl, rfl⟩
          · have := (processImage_some_inv tz now hd s.nextId
              s.existingHashes s.world e hr).2.1
            rw [this] at hnok
            cases hnok
    have htl : ∀ f ∈ tl, f.hash ∈ (batchStep tz now s hd).existingHashes
        ∨ fileOk tz f = false := by
      intro f hf
      rcases h f (List.mem_cons_of_mem hd hf) with hmem | hnok
      · exact Or.inl (hstep.2 ▸ hmem)
      · exact Or.inr hnok
    have := ih (batchStep tz now s hd) htl
    exact ⟨hstep.1 ▸ this.1, hstep.2 ▸ this.2⟩

theorem runBatch_nodup (tz : ℚ → ℚ → List String) (now : ℤ)
    (files : List SourceFile) (s : BatchState)
    (hinv : s.existingHashes = s.images.map (fun e => e.original_hash))
    (hnd : (s.images.map (fun e => e.original_hash)).Nodup) :
    ((runBatch tz now s files).images.map (fun e => e.original_hash)).Nodup := by
  induction files generalizing s with
  | nil => exact hnd
  | cons hd tl ih =>
    refine ih (batchStep tz now s hd) (batchStep_inv tz now s hd hinv) ?_
    rcases hr : (processImage tz now hd s.nextId s.existingHashes s.world).result
      with msg | o
    · rw [batchStep_error tz now s hd msg hr]; exact hnd
    · rcases o with _ | e
      · rw [batchStep_skip tz now s hd hr]; exact hnd
      · have hs := processImage_some_inv tz now hd s.nextId
          s.existingHashes s.world e hr
        rw [batchStep_some tz now s hd e hr]
        have hne : e.original_hash ∉ s.images.map (fun x => x.original_hash) := by
          rw [hs.2.2.2, ← hinv]
          exact hs.1
        simp [List.nodup_append, hnd, hne]

theorem runBatch_fresh (tz : ℚ → ℚ → List String) (now : ℤ)
    (files : List SourceFile) (s : BatchState) :
    ∃ fresh : List ImageEntry,
      (runBatch tz now s files).images = s.images ++ fresh
      ∧ fresh.map (fun e => e.id) = List.range' s.nextId fresh.length
      ∧ (runBatch tz now s files).nextId = s.nextId + fresh.length
      ∧ (runBatch tz now s files).imported = s.imported + fresh.length := by
  induction files generalizing s with
  | nil => exact ⟨[], by simp [runBatch]⟩
  | cons hd tl ih =>
    rcases hr : (processImage tz now hd s.nextId s.existingHashes s.world).result
      with msg | o
    · have hstep := batchStep_error tz now s hd msg hr
      have hrun : runBatch tz now s (hd :: tl) =
          runBatch tz now (batchStep tz now s hd) tl := rfl
      rcases ih (batchStep tz now s hd) with ⟨fresh, h1, h2, h3, h4⟩
      rw [hstep] at h1 h2 h3 h4
      exact ⟨fresh, by rw [hrun, hstep]; exact h1,
        h2, by rw [hrun, hstep]; exact h3, by rw [hrun, hstep]; exact h4⟩
    · rcases o with _ | e
      · have hstep := batchStep_skip tz now s hd hr
        have hrun : runBatch tz now s (hd :: tl) =
            runBatch tz now (batchStep tz now s hd) tl := rfl
        rcases ih (batchStep tz now s hd) with ⟨fresh, h1, h2, h3, h4⟩
        rw [hstep] at h1 h2 h3 h4
        exact ⟨fresh, by rw [hrun, hstep]; exact h1,
          h2, by rw [hrun, hstep]; exact h3, by rw [hrun, hstep]; exact h4⟩
      · have hid := (processImage_some_inv tz now hd s.nextId
          s.existingHashes s.world e hr).2.2.1
        have hstep := batchStep_some tz now s hd e hr
        have hrun : runBatch tz now s (hd :: tl) =
            runBatch tz now (batchStep tz now s hd) tl := rfl
        rcases ih (batchStep tz now s hd) with ⟨fresh, h1, h2, h3, h4⟩
        rw [hstep] at h1 h2 h3 h4
        refine ⟨e :: fresh, ?_, ?_, ?_, ?_⟩
        · rw [hrun, hstep]
          simpa using h1
        · simp only [List.map_cons, List.length_cons, hid]
          rw [List.range']
          simpa using h2
        · rw [hrun, hstep, h3]
          dsimp only
          simp only [List.length_cons]
          omega
        · rw [hrun, hstep, h4]
          dsimp only
          simp only [List.length_cons]
          omega

theorem runBatch_countOutcomes (tz : ℚ → ℚ → List String) (now : ℤ)
    (files : List SourceFile) (s : BatchState) :
    (runBatch tz now s files).imported =
        s.imported + (countOutcomes tz now s files).1
      ∧ (runBatch tz now s files).skipped =
        s.skipped + (countOutcomes tz now s files).2.1
          + (countOutcomes tz now s files).2.2
      ∧ (runBatch tz now s files).images.length =
        s.images.length + (countOutcomes tz now s files).1 := by
  induction files generalizing s with
  | nil => simp [runBatch, countOutcomes]
  | cons hd tl ih =>
    have hrun : runBatch tz now s (hd :: tl) =
        runBatch tz now (batchStep tz now s hd) tl := rfl
    rcases ih (batchStep tz now s hd) with ⟨i1, i2, i3⟩
    rcases hr : (processImage tz now hd s.nextId s.existingHashes s.world).result
      with msg | o
    · have hstep := batchStep_error tz now s hd msg hr
      have hc : countOutcomes tz now s (hd :: tl) =
          ((countOutcomes tz now (batchStep tz now s hd) tl).1,
            (countOutcomes tz now (batchStep tz now s hd) tl).2.1,
            (countOutcomes tz now (batchStep tz now s hd) tl).2.2 + 1) := by
        simp only [countOutcomes, hr]
      rw [hrun, hc]
      refine ⟨by rw [i1, hstep], by rw [i2, hstep]; dsimp only; omega,
        by rw [i3, hstep]⟩
    · rcases o with _ | e
      · have hstep := batchStep_skip tz now s hd hr
        have hc : countOutcomes tz now s (hd :: tl) =
            ((countOutcomes tz now (batchStep tz now s hd) tl).1,
              (countOutcomes tz now (batchStep tz now s hd) tl).2.1 + 1,
              (countOutcomes tz now (batchStep tz now s hd) tl).2.2) := by
          simp only [countOutcomes, hr]
        rw [hrun, hc]
        refine ⟨by rw [i1, hstep], by rw [i2, hstep]; dsimp only; omega,
          by rw [i3, hstep]⟩
      · have hstep := batchStep_some tz now s hd e hr
        have hc : countOutcomes tz now s (hd :: tl) =
            ((countOutcomes tz now (batchStep tz now s hd) tl).1 + 1,
              (countOutcomes tz now (batchStep tz now s hd) tl).2.1,
              (countOutcomes tz now (batchStep tz now s hd) tl).2.2) := by
          simp only [countOutcomes, hr]
        rw [hrun, hc]
        refine ⟨by rw [i1, hstep]; dsimp only; omega,
          by rw [i2, hstep], by rw [i3, hstep]; dsimp only; simp; omega⟩

theorem processImage_no_temp (tz : ℚ → ℚ → List String) (now : ℤ)
    (f : SourceFile) (id : ℕ) (hashes : List String) (w : WorldState)
    (h : FsPath.temp ∉ w.fs) :
    FsPath.temp ∉ (processImage tz now f id hashes w).world.fs := by
  unfold processImage
  split_ifs with hmem
  · exact h
  · dsimp only
    simp [removeTemp, List.mem_filter]

theorem getCached_set (cache : AltCache) (hash t : String) :
    getCachedAltText (setCachedAltText cache hash t) hash = some t := by
  unfold getCachedAltText setCachedAltText
  rw [List.find?_cons_of_pos _ (by simp)]

/-! ## Claim theorems -/

/-- C7: every call to the manifest save operation re-sorts the entire
collection by `taken_at` descending, so after any save the persisted
records are in non-increasing `taken_at` order (and are a permutation
of the collection), regardless of append order. -/
theorem saveImagesYaml_sorted_desc :
    ∀ images : List ImageEntry,
      List.Sorted (fun a b => b.taken_at ≤ a.taken_at) (saveImagesYaml images)
        ∧ (saveImagesYaml images).Perm images :=
  fun images =>
    ⟨List.sorted_insertionSort entryAfter images,
      List.perm_insertionSort entryAfter images⟩

/-- C8: alt-text generation never fails the import: a cache hit is
returned without contacting the remote service; a successful remote
call writes its result through to the cache (so a subsequent request
for the same digest is served from the cache with no network call);
any caught transport/parse error yields the generic fallback string and
writes nothing to the cache. -/
theorem generateAltText_cache_policy :
    (∀ cache net hash v, getCachedAltText cache hash = some v →
      generateAltText cache net hash = ⟨v, cache, false⟩)
    ∧ (∀ cache hash af, getCachedAltText cache hash = none →
      (generateAltText cache (.parsed af) hash).networkCalled = true
        ∧ (generateAltText cache (.parsed af) hash).cache =
          setCachedAltText cache hash (generateAltText cache (.parsed af) hash).text)
    ∧ (∀ cache hash, getCachedAltText cache hash = none →
      generateAltText cache .failed hash = ⟨fallbackAltText, cache, true⟩)
    ∧ (∀ cache hash af net2, getCachedAltText cache hash = none →
      generateAltText (generateAltText cache (.parsed af) hash).cache net2 hash =
        ⟨(generateAltText cache (.parsed af) hash).text,
          (generateAltText cache (.parsed af) hash).cache, false⟩) := by
  refine ⟨?_, ?_, ?_, ?_⟩
  · intro cache net hash v h
    simp [generateAltText, h]
  · intro cache hash af h
    simp [generateAltText, h]
  · intro cache hash h
    simp [generateAltText, h]
  · intro cache hash af net2 h
    have h1 : generateAltText cache (.parsed af) hash =
        ⟨jsOrStr af fallbackAltText,
          setCachedAltText cache hash (jsOrStr af fallbackAltText), true⟩ := by
      simp [generateAltText, h]
    rw [h1]
    simp [generateAltText, getCached_set]

/-- C8 witness: the cache policy at concrete inputs. -/
theorem generateAltText_cache_policy_witness :
    generateAltText [("sha256:good", "Cached text.")] .failed "sha256:good" =
      ⟨"Cached text.", [("sha256:good", "Cached text.")], false⟩
    ∧ generateAltText [] .failed "sha256:good" =
      ⟨fallbackAltText, [], true⟩
    ∧ generateAltText
        (generateAltText [] (.parsed (some "A billboard.")) "sha256:good").cache
        .failed "sha256:good" =
      ⟨(generateAltText [] (.parsed (some "A billboard.")) "sha256:good").text,
        (generateAltText [] (.parsed (some "A billboard.")) "sha256:good").cache,
        false⟩ :=
  ⟨generateAltText_cache_policy.1 [("sha256:good", "Cached text.")] .failed
      "sha256:good" "Cached text." (by decide),
    generateAltText_cache_policy.2.2.1 [] "sha256:good" (by decide),
    generateAltText_cache_policy.2.2.2 [] "sha256:good"
      (some "A billboard.") .failed (by decide)⟩

/-- C9: no invocation of processImage leaves its temporary converted
JPEG behind: whenever the temp file does not pre-exist (each call uses
a fresh timestamped name), it is absent from the filesystem when the
call returns, on the skip path, the success path and every failure
path; concretely, a HEIC file whose thumbnail write throws has the temp
file present at the point the body aborts, and gone after the cleanup
guard runs. -/
theorem processImage_temp_file_cleanup :
    (∀ tz now f id hashes w, FsPath.temp ∉ w.fs →
      FsPath.temp ∉ (processImage tz now f id hashes w).world.fs)
    ∧ FsPath.temp ∈ (processImageBody tzSF 0 demoPartialFile 1 w0).world.fs
    ∧ (processImageBody tzSF 0 demoPartialFile 1 w0).result =
      .error "thumbnail write failed"
    ∧ FsPath.temp ∉ (processImage tzSF 0 demoPartialFile 1 [] w0).world.fs
    ∧ FsPath.temp ∉ (processImage tzSF 0 demoGoodFile 1 [] w0).world.fs := by
  refine ⟨processImage_no_temp, by decide, by rfl, by decide, by decide⟩

/-- C9 witness: the cleanup guarantee applied to a concrete partially
failing HEIC file starting from an empty filesystem. -/
theorem processImage_temp_file_cleanup_witness :
    FsPath.temp ∉ (processImage tzSF 7 demoPartialFile 3 [] w0).world.fs :=
  processImage_temp_file_cleanup.1 tzSF 7 demoPartialFile 3 [] w0 (by decide)

theorem body_writes (tz : ℚ → ℚ → List String) (now : ℤ)
    (f : SourceFile) (id : ℕ) (w : WorldState)
    (hok : fileOk tz f = true) :
    (processImageBody tz now f id w).world.writes =
      w.writes ++
        [⟨.full id, .rotated, none, f.rotatedWidth, f.rotatedHeight, 90⟩,
          ⟨.thumb id, .rotated,
            some ⟨(f.rotatedWidth - min f.rotatedWidth f.rotatedHeight) / 2,
              (f.rotatedHeight - min f.rotatedWidth f.rotatedHeight) / 2,
              min f.rotatedWidth f.rotatedHeight,
              min f.rotatedWidth f.rotatedHeight⟩,
            min f.rotatedWidth f.rotatedHeight,
            min f.rotatedWidth f.rotatedHeight, 85⟩] := by
  simp only [fileOk, Bool.and_eq_true] at hok
  obtain ⟨⟨⟨⟨⟨⟨h1, h2⟩, h3⟩, h4⟩, h5⟩, h6⟩, h7⟩ := hok
  have h4' : f.rotateFails = false := by simpa using h4
  have h5' : f.fullWriteFails = false := by simpa using h5
  have h6' : f.thumbWriteFails = false := by simpa using h6
  rcases hx : extractExifData tz f.meta with msg | ex
  · rw [hx] at h3; simp at h3
  · have h2' : f.readFails = false := by simpa using h2
    by_cases hext : f.meta.ext = ".heic"
    · have h1' : f.convertFails = false := by
        rcases Bool.or_eq_true_iff.mp h1 with hh | hh
        · exfalso; revert hh; simp [hext]
        · simpa using hh
      simp only [processImageBody, hext, if_true, h1', h2',
        Bool.false_eq_true, if_false]
      simpa using afterRead_writes tz now f id _ ex hx h4' h5' h6'
    · simp only [processImageBody, hext, if_false, h2', Bool.false_eq_true]
      exact afterRead_writes tz now f id w ex hx h4' h5' h6'

/-- C6: for a normalized (auto-rotated) image of width W and height H,
a successful processImage run writes exactly two derivatives, both from
the rotated buffer: the full rendition with the original W×H (no
resize) at JPEG quality 90, and a square center-cropped thumbnail of
side min(W, H) with crop origin ((W-side)/2, (H-side)/2) (integer
floor) at JPEG quality 85. -/
theorem processImage_derivatives :
    ∀ tz now f id hashes w,
      f.hash ∉ hashes → fileOk tz f = true →
      (processImage tz now f id hashes w).world.writes =
        w.writes ++
          [⟨.full id, .rotated, none, f.rotatedWidth, f.rotatedHeight, 90⟩,
            ⟨.thumb id, .rotated,
              some ⟨(f.rotatedWidth - min f.rotatedWidth f.rotatedHeight) / 2,
                (f.rotatedHeight - min f.rotatedWidth f.rotatedHeight) / 2,
                min f.rotatedWidth f.rotatedHeight,
                min f.rotatedWidth f.rotatedHeight⟩,
              min f.rotatedWidth f.rotatedHeight,
              min f.rotatedWidth f.rotatedHeight, 85⟩] := by
  intro tz now f id hashes w hmem hok
  simp only [processImage, hmem, if_false]
  exact body_writes tz now f id w hok

/-- C6 witness: the two derivative writes of a concrete 4032×3024 HEIC
file — a 4032×3024 full rendition at quality 90 and a 3024×3024
thumbnail cropped at origin (504, 0) at quality 85. -/
theorem processImage_derivatives_witness :
    (processImage tzSF 0 demoGoodFile 1 [] w0).world.writes =
      [⟨.full 1, .rotated, none, 4032, 3024, 90⟩,
        ⟨.thumb 1, .rotated, some ⟨504, 0, 3024, 3024⟩, 3024, 3024, 85⟩] := by
  have h := processImage_derivatives tzSF 0 demoGoodFile 1 [] w0
    (by decide) (by decide)
  simpa using h

/-- C4: takenAt reconciliation priority in extractExifData — for a HEIC
file a non-null mdls date wins; otherwise the embedded parser's
DateTimeOriginal wins over its CreateDate (first populated field wins);
only when every reader yields nothing is the file modification time
used, and that fallback is the one case flagged by the warning. -/
theorem extractExifData_takenAt_priority :
    (∀ tz f ed warned t, f.ext = ".heic" → f.mdls.takenAt = some t →
      extractExifData tz f = .ok (ed, warned) →
      ed.takenAt = t ∧ warned = false)
    ∧ (∀ tz f ed warned e d, (f.ext = ".heic" → f.mdls.takenAt = none) →
      f.exifr = some e → e.DateTimeOriginal = some d →
      extractExifData tz f = .ok (ed, warned) →
      ed.takenAt = d ∧ warned = false)
    ∧ (∀ tz f ed warned e c, (f.ext = ".heic" → f.mdls.takenAt = none) →
      f.exifr = some e → e.DateTimeOriginal = none → e.CreateDate = some c →
      extractExifData tz f = .ok (ed, warned) →
      ed.takenAt = c ∧ warned = false)
    ∧ (∀ tz f ed warned, (f.ext = ".heic" → f.mdls.takenAt = none) →
      (∀ e, f.exifr = some e →
        e.DateTimeOriginal = none ∧ e.CreateDate = none) →
      extractExifData tz f = .ok (ed, warned) →
      ed.takenAt = f.mtimeMs ∧ warned = true) := by
  refine ⟨?_, ?_, ?_, ?_⟩
  · intro tz f ed warned t hext hmd h
    simp only [extractExifData, hext, hmd, if_true, eq_self_iff_true] at h
    rcases hex : f.exifr with _ | e <;> rw [hex] at h <;> try dsimp only at h <;>
      split at h <;> try (simp at h)
    · split at h <;> simp at h
      obtain ⟨h1, h2⟩ := h
      subst h1
      exact ⟨rfl, h2⟩
    · split at h <;> simp at h
      obtain ⟨h1, h2⟩ := h
      subst h1
      exact ⟨rfl, h2⟩
  · intro tz f ed warned e d hmd hex hdto h
    by_cases hx : f.ext = ".heic"
    · simp only [extractExifData, hx, hmd hx, hex, if_true, eq_self_iff_true] at h
      try dsimp only at h
      rw [hdto] at h
      try dsimp only at h
      split at h <;> try (simp at h)
      split at h <;> simp at h
      obtain ⟨h1, h2⟩ := h
      subst h1
      exact ⟨rfl, h2⟩
    · simp only [extractExifData, hx, hex, if_false] at h
      try dsimp only at h
      rw [hdto] at h
      try dsimp only at h
      split at h <;> try (simp at h)
      split at h <;> simp at h
      obtain ⟨h1, h2⟩ := h
      subst h1
      exact ⟨rfl, h2⟩
  · intro tz f ed warned e c hmd hex hdto hcd h
    by_cases hx : f.ext = ".heic"
    · simp only [extractExifData, hx, hmd hx, hex, if_true, eq_self_iff_true] at h
      try dsimp only at h
      rw [hdto, hcd] at h
      try dsimp only at h
      split at h <;> try (simp at h)
      split at h <;> simp at h
      obtain ⟨h1, h2⟩ := h
      subst h1
      exact ⟨rfl, h2⟩
    · simp only [extractExifData, hx, hex, if_false] at h
      try dsimp only at h
      rw [hdto, hcd] at h
      try dsimp only at h
      split at h <;> try (simp at h)
      split at h <;> simp at h
      obtain ⟨h1, h2⟩ := h
      subst h1
      exact ⟨rfl, h2⟩
  · intro tz f ed warned hmd hnone h
    rcases hex : f.exifr with _ | e
    · by_cases hx : f.ext = ".heic"
      · simp only [extractExifData, hx, hmd hx, hex, if_true, eq_self_iff_true] at h
        try dsimp only at h
        split at h <;> try (simp at h)
        split at h <;> simp at h
        obtain ⟨h1, h2⟩ := h
        subst h1
        exact ⟨rfl, h2⟩
      · simp only [extractExifData, hx, hex, if_false] at h
        simp at h
    · obtain ⟨hdto, hcd⟩ := hnone e hex
      by_cases hx : f.ext = ".heic"
      · simp only [extractExifData, hx, hmd hx, hex, if_true, eq_self_iff_true] at h
        try dsimp only at h
        rw [hdto, hcd] at h
        try dsimp only at h
        split at h <;> try (simp at h)
        split at h <;> simp at h
        obtain ⟨h1, h2⟩ := h
        subst h1
        exact ⟨rfl, h2⟩
      · simp only [extractExifData, hx, hex, if_false] at h
        try dsimp only at h
        rw [hdto, hcd] at h
        try dsimp only at h
        split at h <;> try (simp at h)
        split at h <;> simp at h
        obtain ⟨h1, h2⟩ := h
        subst h1
        exact ⟨rfl, h2⟩

/-- C4 witness: the priority cases at concrete inputs — mdls wins for
the demo HEIC file, whose extraction succeeds with its mdls date. -/
theorem extractExifData_takenAt_priority_witness :
    (⟨1000, ⟨37, -122⟩, "America/Los_Angeles", 4032, 3024⟩ : ExifData).takenAt
        = 1000
      ∧ false = false :=
  extractExifData_takenAt_priority.1 tzSF demoGoodFile.meta
    ⟨1000, ⟨37, -122⟩, "America/Los_Angeles", 4032, 3024⟩ false 1000
    rfl rfl rfl

/-- C2: a file in which neither reader yields GPS coordinates makes
extraction throw; the orchestrator catches a per-file error, appending
no record and consuming no id, and the batch continues — concretely, a
run over a GPS-less file followed by a valid file still imports the
valid file (with id 1) and persists it in the saved manifest. -/
theorem noGps_fails_that_file_only :
    (∀ tz f, (f.ext = ".heic" → f.mdls.location = none) →
      (∀ e, f.exifr = some e →
        (numTruthy e.latitude && numTruthy e.longitude) = false) →
      extractExifData tz f = .error "No GPS coordinates found")
    ∧ (∀ tz now s f msg,
      (processImage tz now f s.nextId s.existingHashes s.world).result =
        .error msg →
      (batchStep tz now s f).images = s.images
        ∧ (batchStep tz now s f).nextId = s.nextId
        ∧ (batchStep tz now s f).skipped = s.skipped + 1)
    ∧ ((runMain tzSF 0 [] w0 [demoBadFile, demoGoodFile]).final.imported = 1
      ∧ (runMain tzSF 0 [] w0 [demoBadFile, demoGoodFile]).final.skipped = 1
      ∧ (runMain tzSF 0 [] w0 [demoBadFile, demoGoodFile]).saved.map
          (fun e => e.original_hash) = ["sha256:good"]
      ∧ (runMain tzSF 0 [] w0 [demoBadFile, demoGoodFile]).saved.map
          (fun e => e.id) = [1]) := by
  refine ⟨?_, ?_, by decide, by decide, by decide, by decide⟩
  · intro tz f hmdl hexif
    by_cases hx : f.ext = ".heic"
    · rcases hex : f.exifr with _ | e
      · simp [extractExifData, hx, hmdl hx, hex]
      · simp [extractExifData, hx, hmdl hx, hex, hexif e hex]
    · rcases hex : f.exifr with _ | e
      · simp [extractExifData, hx, hex]
      · simp [extractExifData, hx, hex, hexif e hex]
  · intro tz now s f msg h
    rw [batchStep_error tz now s f msg h]
    exact ⟨rfl, rfl, rfl⟩

/-- C2 witness: the GPS-less demo JPEG makes extraction throw, and one
orchestrator step over it from the empty initial state leaves the
manifest and the next id unchanged while counting one skip. -/
theorem noGps_fails_that_file_only_witness :
    extractExifData tzSF demoBadFile.meta = .error "No GPS coordinates found"
      ∧ ((batchStep tzSF 0 (initialBatchState [] w0) demoBadFile).images =
          (initialBatchState [] w0).images
        ∧ (batchStep tzSF 0 (initialBatchState [] w0) demoBadFile).nextId =
          (initialBatchState [] w0).nextId
        ∧ (batchStep tzSF 0 (initialBatchState [] w0) demoBadFile).skipped =
          (initialBatchState [] w0).skipped + 1) :=
  ⟨noGps_fails_that_file_only.1 tzSF demoBadFile.meta (fun hx => absurd hx (by decide))
      (fun e he => Option.noConfusion he),
    noGps_fails_that_file_only.2.1 tzSF 0 (initialBatchState [] w0)
      demoBadFile "No GPS coordinates found" rfl⟩

/-- C5 counterexample: for a batch holding exactly one failing file (no
duplicates skipped), the printed report is imported 0 / skipped 1 /
total 0 — the per-file error was counted into the same skipped counter
that counts duplicate digests (the spec-taxonomy tally is 0 imports, 0
duplicate skips, 1 failure), so failures are not reported distinctly
from skips and no third count exists. -/
theorem exit_report_merged_counterexample :
    exitReport (runBatch tzSF 0 (initialBatchState [] w0) [demoBadFile]) =
      ⟨0, 1, 0⟩
    ∧ countOutcomes tzSF 0 (initialBatchState [] w0) [demoBadFile] = (0, 0, 1)
    ∧ (exitReport (runBatch tzSF 0 (initialBatchState [] w0) [demoBadFile])).skipped ≠
      (countOutcomes tzSF 0 (initialBatchState [] w0) [demoBadFile]).2.1 :=
  ⟨by decide, by decide, by decide⟩

/-- C5 (amended): the exit report prints two counters plus the total
manifest size; the imported counter counts the files that returned a
record, while duplicate skips and per-file errors both increment the
single skipped counter — the two categories are merged, not reported
distinctly. -/
theorem exit_report_two_counters :
    (∀ tz now s f,
      exitReport (batchStep tz now s f) =
        ⟨s.imported +
            (match (processImage tz now f s.nextId s.existingHashes s.world).result with
              | .ok (some _) => 1
              | _ => 0),
          s.skipped +
            (match (processImage tz now f s.nextId s.existingHashes s.world).result with
              | .ok (some _) => 0
              | _ => 1),
          s.images.length +
            (match (processImage tz now f s.nextId s.existingHashes s.world).result with
              | .ok (some _) => 1
              | _ => 0)⟩)
    ∧ (∀ tz now s files,
      exitReport (runBatch tz now s files) =
        ⟨s.imported + (countOutcomes tz now s files).1,
          s.skipped + (countOutcomes tz now s files).2.1
            + (countOutcomes tz now s files).2.2,
          s.images.length + (countOutcomes tz now s files).1⟩) := by
  constructor
  · intro tz now s f
    rcases hr : (processImage tz now f s.nextId s.existingHashes s.world).result
      with msg | o
    · rw [batchStep_error tz now s f msg hr]
      simp [exitReport, hr]
    · rcases o with _ | e
      · rw [batchStep_skip tz now s f hr]
        simp [exitReport, hr]
      · rw [batchStep_some tz now s f e hr]
        simp [exitReport, hr]
  · intro tz now s files
    rcases runBatch_countOutcomes tz now files s with ⟨i1, i2, i3⟩
    simp [exitReport, i1, i2, i3]

/-- C3: at orchestrator start the next id is the maximum loaded id plus
one (0 + 1 on an empty manifest); the ids assigned over a batch are
exactly the consecutive integers from that value, one per successfully
imported file; a step whose processImage call returned no record (skip
or error) leaves the next id unchanged. -/
theorem id_assignment_consecutive :
    (∀ tz now loaded w files,
      (initialBatchState loaded w).nextId = maxId loaded + 1
      ∧ ∃ fresh : List ImageEntry,
        (runMain tz now loaded w files).final.images = loaded ++ fresh
        ∧ fresh.map (fun e => e.id) =
            List.range' (maxId loaded + 1) fresh.length
        ∧ (runMain tz now loaded w files).final.nextId =
            maxId loaded + 1 + fresh.length
        ∧ (runMain tz now loaded w files).final.imported = fresh.length)
    ∧ (∀ tz now s f,
      ((processImage tz now f s.nextId s.existingHashes s.world).result =
          .ok none
        ∨ ∃ msg,
          (processImage tz now f s.nextId s.existingHashes s.world).result =
            .error msg) →
      (batchStep tz now s f).nextId = s.nextId) := by
  constructor
  · intro tz now loaded w files
    refine ⟨rfl, ?_⟩
    rcases runBatch_fresh tz now files (initialBatchState loaded w)
      with ⟨fresh, h1, h2, h3, h4⟩
    refine ⟨fresh, h1, h2, h3, ?_⟩
    show (runBatch tz now (initialBatchState loaded w) files).imported =
      fresh.length
    rw [h4]
    simp [initialBatchState]
  · intro tz now s f h
    rcases h with h | ⟨msg, h⟩
    · rw [batchStep_skip tz now s f h]
    · rw [batchStep_error tz now s f msg h]

/-- C3 witness: importing one valid file and one GPS-less file on top
of an empty manifest starts at id 1 and assigns exactly id 1; the step
over the failing file keeps the next id. -/
theorem id_assignment_consecutive_witness :
    ((initialBatchState [] w0).nextId = maxId [] + 1
      ∧ ∃ fresh : List ImageEntry,
        (runMain tzSF 0 [] w0 [demoBadFile, demoGoodFile]).final.images =
          [] ++ fresh
        ∧ fresh.map (fun e => e.id) = List.range' (maxId [] + 1) fresh.length
        ∧ (runMain tzSF 0 [] w0 [demoBadFile, demoGoodFile]).final.nextId =
            maxId [] + 1 + fresh.length
        ∧ (runMain tzSF 0 [] w0 [demoBadFile, demoGoodFile]).final.imported =
            fresh.length)
    ∧ (batchStep tzSF 0 (initialBatchState [] w0) demoBadFile).nextId =
        (initialBatchState [] w0).nextId :=
  ⟨id_assignment_consecutive.1 tzSF 0 [] w0 [demoBadFile, demoGoodFile],
    id_assignment_consecutive.2 tzSF 0 (initialBatchState [] w0) demoBadFile
      (Or.inr ⟨"No GPS coordinates found", rfl⟩)⟩

/-- C1: a file whose digest is already in the dedup set is skipped with
no record, no consumed id, and no world change (no derivative writes);
consequently re-importing the saved manifest's source set produces no
new records, and (starting from a manifest with pairwise-distinct
digests) the saved manifest never holds two records with the same
original hash. -/
theorem digest_dedup_idempotent :
    (∀ tz now f id hashes w, f.hash ∈ hashes →
      processImage tz now f id hashes w = ⟨.ok none, w⟩)
    ∧ (∀ tz now s f, f.hash ∈ s.existingHashes →
      (batchStep tz now s f).images = s.images
        ∧ (batchStep tz now s f).nextId = s.nextId
        ∧ (batchStep tz now s f).world = s.world)
    ∧ (∀ tz now1 now2 loaded w1 w2 files,
      (runMain tz now2 (runMain tz now1 loaded w1 files).saved w2 files).final.images
        = (runMain tz now1 loaded w1 files).saved)
    ∧ (∀ tz now loaded w files,
      (loaded.map (fun e => e.original_hash)).Nodup →
      ((runMain tz now loaded w files).saved.map
        (fun e => e.original_hash)).Nodup) := by
  refine ⟨processImage_mem, ?_, ?_, ?_⟩
  · intro tz now s f hmem
    rw [batchStep_skip tz now s f
      ((processImage_none_iff tz now f s.nextId s.existingHashes s.world).mpr hmem)]
    exact ⟨rfl, rfl, rfl⟩
  · intro tz now1 now2 loaded w1 w2 files
    have hinv1 : (runBatch tz now1 (initialBatchState loaded w1) files).existingHashes =
        (runBatch tz now1 (initialBatchState loaded w1) files).images.map
          (fun e => e.original_hash) :=
      runBatch_inv tz now1 files (initialBatchState loaded w1) rfl
    have hcov : ∀ f ∈ files,
        f.hash ∈ (initialBatchState
          (saveImagesYaml (runBatch tz now1 (initialBatchState loaded w1) files).images)
          w2).existingHashes
        ∨ fileOk tz f = false := by
      intro f hf
      rcases runBatch_covers tz now1 files (initialBatchState loaded w1) f hf
        with hmem | hnok
      · left
        rw [hinv1] at hmem
        show f.hash ∈ (saveImagesYaml
          (runBatch tz now1 (initialBatchState loaded w1) files).images).map
            (fun e => e.original_hash)
        have hperm :=
          (List.perm_insertionSort entryAfter
            (runBatch tz now1 (initialBatchState loaded w1) files).images).map
            (fun e => e.original_hash)
        exact hperm.mem_iff.mpr hmem
      · exact Or.inr hnok
    exact (runBatch_no_imports tz now2 files _ hcov).1
  · intro tz now loaded w files hnd
    have h := runBatch_nodup tz now files (initialBatchState loaded w) rfl hnd
    have hperm :=
      (List.perm_insertionSort entryAfter
        (runBatch tz now (initialBatchState loaded w) files).images).map
        (fun e => e.original_hash)
    exact hperm.nodup_iff.mpr h

/-- C1 witness: the dedup skip and nodup invariant at concrete
inputs — a file whose digest is already known is a strict no-op, and a
one-file import on an empty manifest saves pairwise-distinct digests. -/
theorem digest_dedup_idempotent_witness :
    processImage tzSF 0 demoGoodFile 1 ["sha256:good"] w0 = ⟨.ok none, w0⟩
    ∧ (batchStep tzSF 0 (initialBatchState [demoEntry] w0) demoGoodFile).images
        = (initialBatchState [demoEntry] w0).images
    ∧ ((runMain tzSF 0 [] w0 [demoGoodFile]).saved.map
        (fun e => e.original_hash)).Nodup :=
  ⟨digest_dedup_idempotent.1 tzSF 0 demoGoodFile 1 ["sha256:good"] w0
      (by decide),
    (digest_dedup_idempotent.2.1 tzSF 0 (initialBatchState [demoEntry] w0)
      demoGoodFile (by decide)).1,
    digest_dedup_idempotent.2.2.2 tzSF 0 [] w0 [demoGoodFile] (by decide)⟩

/-- C10: coordinate parsing — a comma-separated string whose three
parts parse as d, m, s yields d + m/60 + s/3600; a comma-free string
yields its parsed decimal value unchanged; a comma-containing string
that does not split into exactly three numeric parts falls through to
parseFloat of the whole string, keeping only its leading number
("37,48,17.44" evaluates to 37 + 48/60 + 17.44/3600 = 850609/22500,
within 1/10000 of 37.8048; "37.8043" to exactly 37.8043; "37,48" to
37). -/
theorem dmsToDecimal_spec :
    (∀ (s : JStr) (pd pm ps : Bool × ℕ × ℕ × ℕ),
      containsChar ',' s = true →
      (splitChar ',' s).map (fun p => parseFloatParts (jsTrim p)) =
        [some pd, some pm, some ps] →
      dmsToDecimal s =
        some (ratOfParts pd + ratOfParts pm / 60 + ratOfParts ps / 3600))
    ∧ (∀ s : JStr, containsChar ',' s = false →
      dmsToDecimal s = parseFloat s)
    ∧ dmsToDecimal "37,48,17.44".toList = some (850609 / 22500)
    ∧ |(850609 : ℚ) / 22500 - 378048 / 10000| < 1 / 10000
    ∧ dmsToDecimal "37.8043".toList = some (378043 / 10000)
    ∧ dmsToDecimal "37,48".toList = some 37 := by
  have hgen : ∀ (s : JStr) (pd pm ps : Bool × ℕ × ℕ × ℕ),
      containsChar ',' s = true →
      (splitChar ',' s).map (fun p => parseFloatParts (jsTrim p)) =
        [some pd, some pm, some ps] →
      dmsToDecimal s =
        some (ratOfParts pd + ratOfParts pm / 60 + ratOfParts ps / 3600) := by
    intro s pd pm ps hc hsplit
    have hmap : (splitChar ',' s).map (fun p => parseFloat (jsTrim p)) =
        [some (ratOfParts pd), some (ratOfParts pm), some (ratOfParts ps)] := by
      have hcomp : (splitChar ',' s).map (fun p => parseFloat (jsTrim p)) =
          ((splitChar ',' s).map (fun p => parseFloatParts (jsTrim p))).map
            (Option.map ratOfParts) := by
        rw [List.map_map]
        rfl
      rw [hcomp, hsplit]
      rfl
    simp only [dmsToDecimal, hc, if_true]
    rw [hmap]
  refine ⟨hgen, ?_, ?_,
    by
      rw [show (850609 : ℚ) / 22500 - 378048 / 10000 = 1 / 22500 by norm_num,
        abs_of_pos (by norm_num)]
      norm_num, ?_, ?_⟩
  · intro s hc
    simp only [dmsToDecimal, hc, Bool.false_eq_true, if_false]
  · have h := hgen "37,48,17.44".toList (false, 37, 0, 0) (false, 48, 0, 0)
      (false, 17, 44, 2) (by decide) (by decide)
    rw [h]
    norm_num [ratOfParts]
  · have hc : containsChar ',' "37.8043".toList = false := by decide
    have hp : parseFloatParts "37.8043".toList = some (false, 37, 8043, 4) := by
      decide
    simp only [dmsToDecimal, hc, Bool.false_eq_true, if_false, parseFloat, hp,
      Option.map_some]
    norm_num [ratOfParts]
  · have hsplit : (splitChar ',' "37,48".toList).map
        (fun p => parseFloat (jsTrim p)) =
        [some (ratOfParts (false, 37, 0, 0)), some (ratOfParts (false, 48, 0, 0))] := by
      have hcomp : (splitChar ',' "37,48".toList).map
          (fun p => parseFloat (jsTrim p)) =
          ((splitChar ',' "37,48".toList).map
            (fun p => parseFloatParts (jsTrim p))).map (Option.map ratOfParts) := by
        rw [List.map_map]
        rfl
      rw [hcomp]
      have : (splitChar ',' "37,48".toList).map
          (fun p => parseFloatParts (jsTrim p)) =
          [some (false, 37, 0, 0), some (false, 48, 0, 0)] := by decide
      rw [this]
      rfl
    have hc : containsChar ',' "37,48".toList = true := by decide
    have hp : parseFloatParts "37,48".toList = some (false, 37, 0, 0) := by
      decide
    simp only [dmsToDecimal, hc, if_true]
    rw [hsplit]
    simp only [parseFloat, hp, Option.map_some]
    norm_num [ratOfParts]

/-- C10 witness: the DMS formula applied to the concrete sexagesimal
string "37,48,17.44". -/
theorem dmsToDecimal_spec_witness :
    dmsToDecimal "37,48,17.44".toList =
      some (ratOfParts (false, 37, 0, 0) + ratOfParts (false, 48, 0, 0) / 60
        + ratOfParts (false, 17, 44, 2) / 3600) :=
  dmsToDecimal_spec.1 "37,48,17.44".toList (false, 37, 0, 0)
    (false, 48, 0, 0) (false, 17, 44, 2) (by decide) (by decide)
